import Mathlib

/-!
Verification of the Flocker container registry (`src/state.rs`).

The registry (`State` in the source) is a `HashMap<String, ContainerInfo>`
persisted as JSON in a per-user `config.json`.  We embed:

* `ContainerInfo` / `DataDirConfig` — the record types, field for field
  (paths become strings, `u16` becomes `Fin 65536`);
* the `HashMap` as an association list in iteration order; the Rust hash
  map's iteration order is arbitrary, so any property that is claimed about
  the map's *contents* must hold up to permutation of that list;
* the persisted file as an optional JSON parse tree (`Option Json`); the
  text layer of `serde_json` is abstracted away: a file whose text does not
  parse, and a parse tree that does not match the schema, are both the
  `.error` outcome of the single `serde_json::from_str` step in `load`;
* file-write outcomes as an oracle (`List Bool`) consumed by `save`, one
  entry per attempted write (an exhausted oracle means writes succeed);
  the `io::Error` text attached to a failed write is abstracted away.
-/

namespace Flocker

/-! ### String ordering

Rust compares `String`s byte-wise; UTF-8 byte order coincides with code
point order, so a code-point lexicographic comparison is the same order.
We define it structurally so the kernel can evaluate it. -/

/-- Code-point lexicographic `<=` on lists of characters (Rust `str` order). -/
def charsLe : List Char → List Char → Bool
  | [], _ => true
  | _ :: _, [] => false
  | a :: as, b :: bs =>
    if a.toNat < b.toNat then true
    else if b.toNat < a.toNat then false
    else charsLe as bs

/-- Rust `String::cmp` as a `<=` test. -/
def strLe (a b : String) : Bool := charsLe a.data b.data

/-- Rust `Option<String>::cmp` as a `<=` test: `None` sorts below `Some`. -/
def optStrLe : Option String → Option String → Bool
  | none, _ => true
  | some _, none => false
  | some x, some y => strLe x y

theorem charsLe_refl (a : List Char) : charsLe a a = true := by
  induction a with
  | nil => rfl
  | cons x xs ih => simp [charsLe, ih]

theorem charsLe_total (a b : List Char) : charsLe a b = true ∨ charsLe b a = true := by
  induction a generalizing b with
  | nil => left; rfl
  | cons x xs ih =>
    cases b with
    | nil => right; rfl
    | cons y ys =>
      simp only [charsLe]
      rcases Nat.lt_trichotomy x.toNat y.toNat with h | h | h
      · left; simp [h]
      · have h2 : ¬ x.toNat < y.toNat := by omega
        have h3 : ¬ y.toNat < x.toNat := by omega
        rcases ih ys with ih1 | ih1
        · left; simp [h2, h3, ih1]
        · right; simp [h2, h3, ih1]
      · right; simp [h, Nat.lt_asymm h]

theorem charsLe_trans (a b c : List Char) (h1 : charsLe a b = true)
    (h2 : charsLe b c = true) : charsLe a c = true := by
  induction a generalizing b c with
  | nil => rfl
  | cons x xs ih =>
    cases b with
    | nil => simp [charsLe] at h1
    | cons y ys =>
      cases c with
      | nil => simp [charsLe] at h2
      | cons z zs =>
        simp only [charsLe] at h1 h2 ⊢
        split_ifs at h1 h2 ⊢ <;>
          first
            | rfl
            | omega
            | (exact ih ys zs h1 h2)

theorem optStrLe_refl (a : Option String) : optStrLe a a = true := by
  cases a with
  | none => rfl
  | some s => exact charsLe_refl s.data

theorem optStrLe_total (a b : Option String) :
    optStrLe a b = true ∨ optStrLe b a = true := by
  cases a with
  | none => left; rfl
  | some x =>
    cases b with
    | none => right; rfl
    | some y => exact charsLe_total x.data y.data

theorem optStrLe_trans (a b c : Option String) (h1 : optStrLe a b = true)
    (h2 : optStrLe b c = true) : optStrLe a c = true := by
  cases a with
  | none => rfl
  | some x =>
    cases b with
    | none => simp [optStrLe] at h1
    | some y =>
      cases c with
      | none => simp [optStrLe] at h2
      | some z => exact charsLe_trans x.data y.data z.data h1 h2

/-! ### Data model (`DataDirConfig`, `ContainerInfo`, `FlockerError`) -/

/-- `DataDirConfig` from `state.rs`: paths are modelled as strings. -/
structure DataDirConfig where
  relative_path : Option String
  absolute_path : String
deriving DecidableEq, Repr

/-- `ContainerInfo` from `state.rs`; `port: u16` becomes `Fin 65536`. -/
structure ContainerInfo where
  id : String
  name : String
  port : Fin 65536
  data_dir : Option DataDirConfig
  config_dir : Option DataDirConfig
  image_tag : String
  last_start : Option String
deriving DecidableEq, Repr

/-- `FlockerError` from `error.rs`.  The `Io` payload (`std::io::Error`) is
modelled as its message string.  The `ConfigFile` struct variant is not in
the `error.rs` revision under `src/` but is reconstructed from its
construction sites in `state.rs` (`message`, `path`, `source` fields); it is
the spec's `PersistenceError` carrying the file path and underlying cause. -/
inductive FlockerError where
  | Docker (msg : String)
  | Config (msg : String)
  | Io (msg : String)
  | UserInput (msg : String)
  | ConfigFile (message : String) (path : String) (source : String)
deriving DecidableEq, Repr

/-! ### JSON trees

The persisted file format.  Numbers are naturals, which covers everything
this schema serializes (the only numeric field is the `u16` port). -/

/-- A JSON parse tree; objects keep their fields in order. -/
inductive Json where
  | null
  | bool (b : Bool)
  | num (n : Nat)
  | str (s : String)
  | arr (elems : List Json)
  | obj (fields : List (String × Json))

/-! ### The hash map model

`HashMap<String, ContainerInfo>` as an association list in iteration
order.  `insert` on a present key replaces the value in place (the bucket
position does not move); a fresh key is appended, which fixes one of the
arbitrary iteration orders.  Everything the claims say about *contents*
is therefore proved for every list, i.e. every iteration order. -/

abbrev ContainerMap := List (String × ContainerInfo)

/-- `HashMap::contains_key`. -/
def mapContainsKey (m : ContainerMap) (k : String) : Bool :=
  m.any (fun e => e.1 == k)

/-- `HashMap::get`. -/
def mapGet (m : ContainerMap) (k : String) : Option ContainerInfo :=
  (m.find? (fun e => e.1 == k)).map (fun e => e.2)

/-- `HashMap::insert`. -/
def mapInsert (m : ContainerMap) (k : String) (v : ContainerInfo) : ContainerMap :=
  if mapContainsKey m k then m.map (fun e => if e.1 == k then (k, v) else e)
  else m ++ [(k, v)]

/-- `HashMap::remove` (the returned old value is unused by the source). -/
def mapRemove (m : ContainerMap) (k : String) : ContainerMap :=
  m.filter (fun e => e.1 != k)

/-- `HashMap::values` in iteration order. -/
def mapValues (m : ContainerMap) : List ContainerInfo :=
  m.map (fun e => e.2)

/-- In-place mutation through `HashMap::get_mut`: a no-op when the key is
absent, exactly like the source's `if let Some(c) = get_mut(..)`. -/
def mapUpdate (m : ContainerMap) (k : String) (f : ContainerInfo → ContainerInfo) :
    ContainerMap :=
  m.map (fun e => if e.1 == k then (e.1, f e.2) else e)

/-- `State` from `state.rs`: the registry, a map from container id to record. -/
structure State where
  containers : ContainerMap
deriving DecidableEq, Repr

/-! ### Serialization (`serde` derive on `State`/`ContainerInfo`)

Structs serialize to objects field by field; `Option` serializes `None`
as `null`; the map serializes to an object keyed by container id.
Deserialization requires every non-`Option` field, treats a missing or
`null` `Option` field as `None`, and range-checks the `u16` port,
mirroring `serde`'s derived behavior. -/

/-- Serialize an optional value, `None` becoming `null`. -/
def optJson {α : Type} (f : α → Json) : Option α → Json
  | none => Json.null
  | some a => f a

def DataDirConfig.toJson (d : DataDirConfig) : Json :=
  .obj [("relative_path", optJson Json.str d.relative_path),
        ("absolute_path", .str d.absolute_path)]

def ContainerInfo.toJson (c : ContainerInfo) : Json :=
  .obj [("id", .str c.id), ("name", .str c.name), ("port", .num c.port.val),
        ("data_dir", optJson DataDirConfig.toJson c.data_dir),
        ("config_dir", optJson DataDirConfig.toJson c.config_dir),
        ("image_tag", .str c.image_tag),
        ("last_start", optJson Json.str c.last_start)]

def State.toJson (s : State) : Json :=
  .obj [("containers", .obj (s.containers.map
          (fun e => (e.1, ContainerInfo.toJson e.2))))]

/-- Look up a field of a JSON object. -/
def getField (fields : List (String × Json)) (k : String) : Option Json :=
  (fields.find? (fun f => f.1 == k)).map (fun f => f.2)

/-- Decode a required string field. -/
def getStr (fields : List (String × Json)) (k : String) : Except String String :=
  match getField fields k with
  | some (.str s) => .ok s
  | some _ => .error ("invalid type for field " ++ k)
  | none => .error ("missing field " ++ k)

/-- Decode an optional string field (missing or `null` is `None`). -/
def getOptStr (fields : List (String × Json)) (k : String) :
    Except String (Option String) :=
  match getField fields k with
  | none => .ok none
  | some .null => .ok none
  | some (.str s) => .ok (some s)
  | some _ => .error ("invalid type for field " ++ k)

/-- Decode a required `u16` field. -/
def getU16 (fields : List (String × Json)) (k : String) :
    Except String (Fin 65536) :=
  match getField fields k with
  | some (.num n) =>
    if h : n < 65536 then .ok ⟨n, h⟩
    else .error ("integer out of range for u16 in field " ++ k)
  | some _ => .error ("invalid type for field " ++ k)
  | none => .error ("missing field " ++ k)

def DataDirConfig.fromJson : Json → Except String DataDirConfig
  | .obj fields => do
    let rel ← getOptStr fields "relative_path"
    let ab ← getStr fields "absolute_path"
    .ok ⟨rel, ab⟩
  | _ => .error "expected object for DataDirConfig"

/-- Decode an optional `DataDirConfig` value (missing or `null` is `None`). -/
def decodeOptDataDir : Option Json → Except String (Option DataDirConfig)
  | none => .ok none
  | some .null => .ok none
  | some j => (DataDirConfig.fromJson j).map some

/-- Decode an optional `DataDirConfig` field. -/
def getOptDataDir (fields : List (String × Json)) (k : String) :
    Except String (Option DataDirConfig) :=
  decodeOptDataDir (getField fields k)

def ContainerInfo.fromJson : Json → Except String ContainerInfo
  | .obj fields => do
    let i ← getStr fields "id"
    let n ← getStr fields "name"
    let p ← getU16 fields "port"
    let dd ← getOptDataDir fields "data_dir"
    let cd ← getOptDataDir fields "config_dir"
    let tag ← getStr fields "image_tag"
    let ls ← getOptStr fields "last_start"
    .ok ⟨i, n, p, dd, cd, tag, ls⟩
  | _ => .error "expected object for ContainerInfo"

/-- Decode the entries of the serialized container map, in order. -/
def decodeEntries : List (String × Json) → Except String ContainerMap
  | [] => .ok []
  | (k, v) :: rest => do
    let c ← ContainerInfo.fromJson v
    let tail ← decodeEntries rest
    .ok ((k, c) :: tail)

def State.fromJson : Json → Except String State
  | .obj fields =>
    match getField fields "containers" with
    | some (.obj entries) => (decodeEntries entries).map State.mk
    | some _ => .error "invalid type for field containers"
    | none => .error "missing field containers"
  | _ => .error "expected object for State"

theorem dataDir_roundtrip (d : DataDirConfig) :
    DataDirConfig.fromJson d.toJson = .ok d := by
  obtain ⟨rel, ab⟩ := d
  cases rel <;> rfl

theorem decodeOptDataDir_toJson (d : DataDirConfig) :
    decodeOptDataDir (some d.toJson) = .ok (some d) := by
  obtain ⟨rel, ab⟩ := d
  cases rel <;> rfl

theorem decodeOptDataDir_none : decodeOptDataDir none = .ok none := rfl

theorem decodeOptDataDir_null : decodeOptDataDir (some Json.null) = .ok none := rfl

theorem containerInfo_roundtrip (c : ContainerInfo) :
    ContainerInfo.fromJson c.toJson = .ok c := by
  obtain ⟨i, n, p, dd, cd, tag, ls⟩ := c
  simp only [ContainerInfo.toJson, ContainerInfo.fromJson, optJson, getField,
    getStr, getOptStr, getU16, getOptDataDir, List.find?]
  cases dd <;> cases cd <;> cases ls <;>
    simp [decodeOptDataDir_none, decodeOptDataDir_null, decodeOptDataDir_toJson,
      Except.map, bind, Except.bind, p.isLt, Fin.eta]

theorem decodeEntries_roundtrip (m : ContainerMap) :
    decodeEntries (m.map (fun e => (e.1, ContainerInfo.toJson e.2))) = .ok m := by
  induction m with
  | nil => rfl
  | cons e rest ih =>
    simp [decodeEntries, containerInfo_roundtrip, ih, bind, Except.bind]

theorem state_roundtrip (s : State) : State.fromJson s.toJson = .ok s := by
  obtain ⟨m⟩ := s
  simp [State.toJson, State.fromJson, getField, List.find?,
    decodeEntries_roundtrip, Except.map]

/-! ### Persistence and the mutating operations

`World` is the in-memory registry together with the persisted file (as an
optional JSON tree) and the oracle of file-write outcomes.  Each Rust
method on `State` that touches the file becomes a function
`World → Except FlockerError Unit × World` returning its `Result` and the
world it leaves behind (on an `Err`, the Rust `&mut self` keeps whatever
mutations already happened — so does our second component). -/

structure World where
  state : State
  disk : Option Json
  oracle : List Bool

/-- Pop the outcome of the next attempted file write; an exhausted oracle
means the write succeeds. -/
def takeOutcome : List Bool → Bool × List Bool
  | [] => (true, [])
  | b :: rest => (b, rest)

/-- `State::save`: serialize the whole registry and write it to the config
file.  Directory-creation, serialization and write failures are collapsed
into the single oracle outcome; the attached `io::Error` text is
abstracted away. -/
def World.save (w : World) : Except FlockerError Unit × World :=
  let (ok, rest) := takeOutcome w.oracle
  if ok then (.ok (), { w with disk := some w.state.toJson, oracle := rest })
  else (.error (.Config "Failed to write config"), { w with oracle := rest })

/-- `State::load`: absent file gives the default (empty) registry; a file
that does not parse into a `State` gives a `ConfigFile` error carrying the
path and the cause reported by the parser. -/
def State.load (disk : Option Json) (path : String) : Except FlockerError State :=
  match disk with
  | none => .ok ⟨[]⟩
  | some j =>
    match State.fromJson j with
    | .ok s => .ok s
    | .error e => .error (.ConfigFile "Failed to parse config file" path e)

/-- `State::add_container`: reject a name held by a different id, then
save (the source saves once before the insert "to ensure directory
exists"), insert keyed by `info.id`, and save again. -/
def World.add_container (w : World) (info : ContainerInfo) :
    Except FlockerError Unit × World :=
  match (mapValues w.state.containers).find?
      (fun c => c.name == info.name && c.id != info.id) with
  | some existing =>
    (.error (.Config ("Container name '" ++ info.name ++
      "' is already in use by container " ++ existing.id)), w)
  | none =>
    match w.save with
    | (.error e, w1) => (.error e, w1)
    | (.ok _, w1) =>
      let w2 : World := { w1 with
        state := ⟨mapInsert w1.state.containers info.id info⟩ }
      w2.save

/-- `State::remove_container`: error when the id is unknown, otherwise
remove the entry and save. -/
def World.remove_container (w : World) (container_id : String) :
    Except FlockerError Unit × World :=
  if mapContainsKey w.state.containers container_id then
    let w1 : World := { w with
      state := ⟨mapRemove w.state.containers container_id⟩ }
    w1.save
  else
    (.error (.Config ("Container " ++ container_id ++ " not found in state")), w)

/-- `State::update_container_start_time`: set `last_start` through
`get_mut` (a silent no-op when the id is unknown) and save. -/
def World.update_container_start_time (w : World) (container_id : String)
    (start_time : String) : Except FlockerError Unit × World :=
  let w1 : World := { w with
    state := ⟨mapUpdate w.state.containers container_id
      (fun c => { c with last_start := some start_time })⟩ }
  w1.save

/-! ### Query operations (all take `&self` and touch no file) -/

/-- Character-list version of `List::starts_with`. -/
def charsPrefixOf : List Char → List Char → Bool
  | [], _ => true
  | _ :: _, [] => false
  | a :: as, b :: bs => a == b && charsPrefixOf as bs

/-- Substring occurrence on character lists. -/
def charsInfixOf (needle : List Char) : List Char → Bool
  | [] => needle.isEmpty
  | c :: rest => charsPrefixOf needle (c :: rest) || charsInfixOf needle rest

/-- Rust `str::contains`: substring test. -/
def strContains (hay needle : String) : Bool :=
  charsInfixOf needle.data hay.data

/-- `State::find_containers_by_name`. -/
def State.find_containers_by_name (s : State) (name : String) :
    List ContainerInfo :=
  (mapValues s.containers).filter (fun c => strContains c.name name)

/-- `State::get_container`. -/
def State.get_container (s : State) (container_id : String) :
    Option ContainerInfo :=
  mapGet s.containers container_id

/-- The sort order of `State::get_containers`: the source runs the stable
`sort_by(|a, b| b.last_start.cmp(&a.last_start))`, i.e. descending by
`last_start` with `None` smallest. -/
def lastStartDesc (a b : ContainerInfo) : Prop :=
  optStrLe b.last_start a.last_start = true

instance : DecidableRel lastStartDesc := fun _ _ =>
  inferInstanceAs (Decidable (_ = true))

instance : IsTotal ContainerInfo lastStartDesc :=
  ⟨fun a b => optStrLe_total b.last_start a.last_start⟩

instance : IsTrans ContainerInfo lastStartDesc :=
  ⟨fun _ b _ h1 h2 => optStrLe_trans _ b.last_start _ h2 h1⟩

/-- `State::get_containers`.  Rust's `sort_by` is a stable sort and
`lastStartDesc` is a total preorder; a stable sort for a total preorder is
uniquely determined by the input sequence, so the (structural, hence
evaluable) insertion sort below computes exactly the same list. -/
def State.get_containers (s : State) : List ContainerInfo :=
  List.insertionSort lastStartDesc (mapValues s.containers)

/-- One step of `Iterator::max_by_key`: a candidate whose key is at least
the current maximum replaces it, so of several maxima the *last* one in
iteration order survives, as documented for `max_by_key`. -/
def maxStep (acc : Option ContainerInfo) (c : ContainerInfo) :
    Option ContainerInfo :=
  match acc with
  | none => some c
  | some m => if optStrLe m.last_start c.last_start then some c else some m

/-- Rust `Iterator::max_by_key` on `last_start.as_ref()`. -/
def maxByLastStart (l : List ContainerInfo) : Option ContainerInfo :=
  l.foldl maxStep none

/-- `State::get_default_settings`. -/
def State.get_default_settings (s : State) :
    Fin 65536 × Option DataDirConfig :=
  match maxByLastStart (mapValues s.containers) with
  | some c => (c.port, c.data_dir)
  | none => (⟨8090, by decide⟩, none)

/-- The read-only operations of the registry, as one call type. -/
inductive QueryOp where
  | getC (container_id : String)
  | findByName (name : String)
  | listC
  | defaults

/-- Results of read-only operations. -/
inductive QueryResult where
  | container (c : Option ContainerInfo)
  | containerList (cs : List ContainerInfo)
  | settings (p : Fin 65536 × Option DataDirConfig)

/-- Run one read-only call: every one of them takes `&self`, computes from
the registry and returns; none touches the state or the file. -/
def World.runQuery (w : World) : QueryOp → QueryResult × World
  | .getC cid => (.container (w.state.get_container cid), w)
  | .findByName n => (.containerList (w.state.find_containers_by_name n), w)
  | .listC => (.containerList w.state.get_containers, w)
  | .defaults => (.settings w.state.get_default_settings, w)

/-- Run a sequence of read-only calls, threading the world through. -/
def World.runQueries (w : World) (qs : List QueryOp) : World :=
  qs.foldl (fun w q => (w.runQuery q).2) w

/-! ### Helper lemmas about `save` and the map model -/

theorem World.save_oracle_nil (w : World) (h : w.oracle = []) :
    w.save = (.ok (), { w with disk := some w.state.toJson, oracle := [] }) := by
  simp [World.save, takeOutcome, h]

theorem World.save_ok_shape (w : World) (h : (w.save).1 = .ok ()) :
    (w.save).2.disk = some w.state.toJson ∧ (w.save).2.state = w.state ∧
      (w.save).2.oracle = (takeOutcome w.oracle).2 := by
  rcases htk : takeOutcome w.oracle with ⟨b, rest⟩
  cases b with
  | false => simp [World.save, htk] at h
  | true => simp [World.save, htk]

theorem mapValues_append (a b : ContainerMap) :
    mapValues (a ++ b) = mapValues a ++ mapValues b := by
  simp [mapValues]

theorem mapContainsKey_mapRemove (m : ContainerMap) (k : String) :
    mapContainsKey (mapRemove m k) k = false := by
  induction m with
  | nil => rfl
  | cons e rest ih =>
    by_cases h : e.1 = k <;>
      simp [mapRemove, mapContainsKey, List.filter_cons, h, bne] at ih ⊢

theorem mapUpdate_of_not_contains (m : ContainerMap) (k : String)
    (f : ContainerInfo → ContainerInfo) (h : mapContainsKey m k = false) :
    mapUpdate m k f = m := by
  induction m with
  | nil => rfl
  | cons e rest ih =>
    simp only [mapContainsKey, List.any_cons, Bool.or_eq_false_iff] at h
    simp only [mapUpdate, List.map_cons, h.1]
    have := ih (by simpa [mapContainsKey] using h.2)
    simpa [mapUpdate] using this

/-- The conflict scan of `add_container` finds nothing when no stored record
bears the incoming name. -/
theorem find_conflict_none (m : ContainerMap) (info : ContainerInfo)
    (h : ∀ c ∈ mapValues m, c.name ≠ info.name) :
    (mapValues m).find? (fun c => c.name == info.name && c.id != info.id)
      = none := by
  rw [List.find?_eq_none]
  intro c hc
  simp [h c hc]

/-- The conflict scan also finds nothing when every stored record with the
incoming name has the incoming id. -/
theorem find_conflict_none_of_same_id (m : ContainerMap) (info : ContainerInfo)
    (h : ∀ c ∈ mapValues m, c.name = info.name → c.id = info.id) :
    (mapValues m).find? (fun c => c.name == info.name && c.id != info.id)
      = none := by
  rw [List.find?_eq_none]
  intro c hc
  by_cases hn : c.name = info.name
  · simp [hn, h c hc hn]
  · simp [hn]

/-- `add_container` on a conflicting name: the exact error of the source,
naming the existing record, and an untouched world. -/
theorem World.add_container_conflict (w : World) (info existing : ContainerInfo)
    (hfind : (mapValues w.state.containers).find?
      (fun c => c.name == info.name && c.id != info.id) = some existing) :
    w.add_container info =
      (.error (.Config ("Container name '" ++ info.name ++
        "' is already in use by container " ++ existing.id)), w) := by
  simp [World.add_container, hfind]

/-- `add_container` with no name conflict and succeeding writes: the record
is inserted keyed by its id and the result persisted. -/
theorem World.add_container_success (w : World) (info : ContainerInfo)
    (hfind : (mapValues w.state.containers).find?
      (fun c => c.name == info.name && c.id != info.id) = none)
    (horacle : w.oracle = []) :
    w.add_container info =
      (.ok (), ⟨⟨mapInsert w.state.containers info.id info⟩,
        some (State.toJson ⟨mapInsert w.state.containers info.id info⟩), []⟩) := by
  obtain ⟨⟨m⟩, d, orc⟩ := w
  simp only at horacle
  subst horacle
  simp [World.add_container, hfind, World.save, takeOutcome]

/-! ### Concrete fixtures for witnesses and counterexamples -/

/-- The record of the repository's round-trip test, with the spec's 9090. -/
def sampleA : ContainerInfo :=
  { id := "test1", name := "test", port := ⟨9090, by decide⟩, data_dir := none,
    config_dir := none, image_tag := "latest", last_start := none }

/-- A second record sharing `sampleA`'s name under a different id. -/
def sampleB : ContainerInfo :=
  { id := "test2", name := "test", port := ⟨8091, by decide⟩, data_dir := none,
    config_dir := none, image_tag := "latest", last_start := none }

/-- An upsert payload: `sampleA`'s id and name, new port and tag. -/
def sampleA2 : ContainerInfo :=
  { id := "test1", name := "test", port := ⟨8095, by decide⟩, data_dir := none,
    config_dir := none, image_tag := "v3", last_start := none }

/-- Started on 2024-01-01. -/
def recJan1 : ContainerInfo :=
  { id := "c1", name := "one", port := ⟨8090, by decide⟩, data_dir := none,
    config_dir := none, image_tag := "latest",
    last_start := some "2024-01-01T00:00:00Z" }

/-- Started on 2024-01-02. -/
def recJan2 : ContainerInfo :=
  { id := "c2", name := "two", port := ⟨8091, by decide⟩, data_dir := none,
    config_dir := none, image_tag := "latest",
    last_start := some "2024-01-02T00:00:00Z" }

/-- Never started. -/
def recNoneX : ContainerInfo :=
  { id := "x", name := "ex", port := ⟨8090, by decide⟩, data_dir := none,
    config_dir := none, image_tag := "latest", last_start := none }

/-- Never started, distinct from `recNoneX`. -/
def recNoneY : ContainerInfo :=
  { id := "y", name := "why", port := ⟨8091, by decide⟩, data_dir := none,
    config_dir := none, image_tag := "latest", last_start := none }

/-- Tied `last_start`, port 1000. -/
def recTieP : ContainerInfo :=
  { id := "p", name := "pee", port := ⟨1000, by decide⟩, data_dir := none,
    config_dir := none, image_tag := "latest",
    last_start := some "2024-01-01T00:00:00Z" }

/-- Tied `last_start`, port 2000. -/
def recTieQ : ContainerInfo :=
  { id := "q", name := "queue", port := ⟨2000, by decide⟩, data_dir := none,
    config_dir := none, image_tag := "latest",
    last_start := some "2024-01-01T00:00:00Z" }

/-- Fresh world: empty registry, no file, writes succeed. -/
def emptyWorld : World := ⟨⟨[]⟩, none, []⟩

/-- World whose first file write succeeds and second fails. -/
def wFailSecond : World := ⟨⟨[]⟩, none, [true, false]⟩

/-- World already holding `sampleA`, writes succeed. -/
def wWithA : World := ⟨⟨[("test1", sampleA)]⟩, none, []⟩

/-! ### C1 — duplicate name rejected, existing record named -/

/-- C1: adding `r1` to a registry free of its name and id succeeds, and then
adding `r2` with the same name but a different id fails with the error that
names the existing record (`r1`); the registry afterwards still holds
exactly the entries it had after `r1`'s insertion — in particular `r1` and
not `r2`. -/
theorem addContainer_rejects_duplicate_name (w : World) (r1 r2 : ContainerInfo)
    (hid : r1.id ≠ r2.id) (hname : r1.name = r2.name)
    (hfresh_name : ∀ c ∈ mapValues w.state.containers, c.name ≠ r1.name)
    (hfresh_id : ∀ e ∈ w.state.containers, e.1 ≠ r1.id)
    (horacle : w.oracle = []) :
    (w.add_container r1).1 = .ok () ∧
    (w.add_container r1).2.state.containers
      = w.state.containers ++ [(r1.id, r1)] ∧
    ((w.add_container r1).2.add_container r2).1 =
      .error (.Config ("Container name '" ++ r2.name ++
        "' is already in use by container " ++ r1.id)) ∧
    ((w.add_container r1).2.add_container r2).2.state.containers
      = w.state.containers ++ [(r1.id, r1)] ∧
    r2 ∉ mapValues (((w.add_container r1).2.add_container r2).2.state.containers)
      := by
  have hfind1 : (mapValues w.state.containers).find?
      (fun c => c.name == r1.name && c.id != r1.id) = none :=
    find_conflict_none _ _ hfresh_name
  have hkey1 : mapContainsKey w.state.containers r1.id = false := by
    simp only [mapContainsKey, List.any_eq_false]
    intro e he
    simp [hfresh_id e he]
  have hins : mapInsert w.state.containers r1.id r1
      = w.state.containers ++ [(r1.id, r1)] := by
    simp [mapInsert, hkey1]
  have hstep1 := World.add_container_success w r1 hfind1 horacle
  rw [hstep1, hins]
  have hfind2 : (mapValues (w.state.containers ++ [(r1.id, r1)])).find?
      (fun c => c.name == r2.name && c.id != r2.id) = some r1 := by
    rw [mapValues_append, List.find?_append]
    have h1 : (mapValues w.state.containers).find?
        (fun c => c.name == r2.name && c.id != r2.id) = none := by
      rw [List.find?_eq_none]
      intro c hc
      simp [hname ▸ hfresh_name c hc]
    rw [h1]
    simp [mapValues, hname, bne, hid]
  have hstep2 := World.add_container_conflict
    ⟨⟨w.state.containers ++ [(r1.id, r1)]⟩,
      some (State.toJson ⟨w.state.containers ++ [(r1.id, r1)]⟩), []⟩ r2 r1 hfind2
  refine ⟨rfl, rfl, ?_, ?_, ?_⟩
  · rw [hstep2]
  · rw [hstep2]
  · rw [hstep2]
    rw [mapValues_append]
    simp only [List.mem_append, not_or]
    constructor
    · intro hmem
      exact hfresh_name r2 hmem (hname ▸ rfl)
    · intro hmem
      apply hid
      simp only [mapValues, List.map_cons, List.map_nil, List.mem_singleton] at hmem
      rw [hmem]

/-- C1 witness: on the empty registry, adding `sampleA` (name "test") then
`sampleB` (same name, different id) errors naming `test1`, and the registry
holds exactly `sampleA`. -/
theorem addContainer_rejects_duplicate_name_witness :
    (emptyWorld.add_container sampleA).1 = .ok () ∧
    (emptyWorld.add_container sampleA).2.state.containers
      = [("test1", sampleA)] ∧
    ((emptyWorld.add_container sampleA).2.add_container sampleB).1 =
      .error (.Config
        "Container name 'test' is already in use by container test1") ∧
    ((emptyWorld.add_container sampleA).2.add_container sampleB).2.state.containers
      = [("test1", sampleA)] ∧
    sampleB ∉ mapValues
      (((emptyWorld.add_container sampleA).2.add_container sampleB).2.state.containers)
      := by
  have h := addContainer_rejects_duplicate_name emptyWorld sampleA sampleB
    (by decide) rfl (by decide) (by decide) rfl
  simpa using h

/-! ### C9 — add is an upsert keyed on id -/

/-- C9: when the incoming id is already a key of the registry and no record
with a *different* id holds the incoming name, `add_container` succeeds and
replaces the entry under that id with the new record. -/
theorem add_container_upsert (w : World) (info : ContainerInfo)
    (hkey : mapContainsKey w.state.containers info.id = true)
    (hname : ∀ c ∈ mapValues w.state.containers,
      c.name = info.name → c.id = info.id)
    (horacle : w.oracle = []) :
    (w.add_container info).1 = .ok () ∧
    (w.add_container info).2.state.containers =
      w.state.containers.map
        (fun e => if e.1 == info.id then (info.id, info) else e) := by
  have hfind := find_conflict_none_of_same_id _ info hname
  have h := World.add_container_success w info hfind horacle
  rw [h]
  exact ⟨rfl, by simp [mapInsert, hkey]⟩

/-- C9 witness: re-adding id `test1` under its existing name with a new port
and tag succeeds and replaces the stored record. -/
theorem add_container_upsert_witness :
    (wWithA.add_container sampleA2).1 = .ok () ∧
    (wWithA.add_container sampleA2).2.state.containers
      = [("test1", sampleA2)] := by
  have h := add_container_upsert wWithA sampleA2 (by decide) (by decide) rfl
  simpa [wWithA, sampleA2] using h

/-! ### C3 — persist before success; no rollback on failure -/

/-- C3 (amended): each mutating operation that returns success has written
the serialization of its final in-memory registry to the file before
returning.  (When the persist fails the operation returns the error but the
in-memory mutation already made is kept — see the counterexample.) -/
theorem mutators_persist_on_success (w : World) (info : ContainerInfo)
    (cid ts : String) :
    ((w.add_container info).1 = .ok () →
      (w.add_container info).2.disk
        = some (w.add_container info).2.state.toJson) ∧
    ((w.remove_container cid).1 = .ok () →
      (w.remove_container cid).2.disk
        = some (w.remove_container cid).2.state.toJson) ∧
    ((w.update_container_start_time cid ts).1 = .ok () →
      (w.update_container_start_time cid ts).2.disk
        = some (w.update_container_start_time cid ts).2.state.toJson) := by
  refine ⟨?_, ?_, ?_⟩
  · intro h
    unfold World.add_container at h ⊢
    split at h
    next existing heq =>
      simp at h
    next heq =>
      split at h
      next e w1 heq2 =>
        simp at h
      next a w1 heq2 =>
        simp only at h ⊢
        obtain ⟨h1, h2, _⟩ := World.save_ok_shape _ h
        rw [h1, h2]
  · intro h
    unfold World.remove_container at h ⊢
    by_cases hc : mapContainsKey w.state.containers cid = true
    · simp only [hc, if_true] at h ⊢
      obtain ⟨h1, h2, _⟩ := World.save_ok_shape _ h
      rw [h1, h2]
    · simp only [Bool.not_eq_true] at hc
      simp [hc] at h
  · intro h
    unfold World.update_container_start_time at h ⊢
    obtain ⟨h1, h2, _⟩ := World.save_ok_shape _ h
    rw [h1, h2]

/-- C3 witness: each of the three mutators, run where it succeeds, leaves
the file holding the serialization of the final registry. -/
theorem mutators_persist_on_success_witness :
    (emptyWorld.add_container sampleA).2.disk
      = some (emptyWorld.add_container sampleA).2.state.toJson ∧
    (wWithA.remove_container "test1").2.disk
      = some (wWithA.remove_container "test1").2.state.toJson ∧
    (wWithA.update_container_start_time "test1" "2024-01-01T00:00:00Z").2.disk
      = some (wWithA.update_container_start_time "test1"
          "2024-01-01T00:00:00Z").2.state.toJson :=
  ⟨(mutators_persist_on_success emptyWorld sampleA "" "").1 rfl,
   (mutators_persist_on_success wWithA sampleA "test1" "").2.1 rfl,
   (mutators_persist_on_success wWithA sampleA "test1"
     "2024-01-01T00:00:00Z").2.2 rfl⟩

/-- C3 counterexample: starting from the empty registry with the first file
write succeeding and the second failing, `add_container` returns the persist
error yet the inserted record is still in the in-memory registry — the
mutation is not rolled back to the pre-operation contents. -/
theorem add_container_persist_failure_keeps_mutation :
    (wFailSecond.add_container sampleA).1
      = .error (.Config "Failed to write config") ∧
    wFailSecond.state.containers = [] ∧
    (wFailSecond.add_container sampleA).2.state.containers
      = [("test1", sampleA)] :=
  ⟨rfl, rfl, rfl⟩

/-! ### C4 — remove of an unknown id -/

/-- C4: removing an id with no entry returns the not-found error and leaves
the whole world (registry and file) untouched; removing a present id (with
the write succeeding) succeeds once and the identical call then fails. -/
theorem remove_container_not_found_spec (w : World) (cid : String) :
    (mapContainsKey w.state.containers cid = false →
      w.remove_container cid =
        (.error (.Config ("Container " ++ cid ++ " not found in state")), w)) ∧
    (mapContainsKey w.state.containers cid = true → w.oracle = [] →
      (w.remove_container cid).1 = .ok () ∧
      ((w.remove_container cid).2.remove_container cid).1 =
        .error (.Config ("Container " ++ cid ++ " not found in state"))) := by
  constructor
  · intro h
    simp [World.remove_container, h]
  · intro h horacle
    simp only [World.remove_container, h, if_true]
    rw [World.save_oracle_nil _ (by simpa using horacle)]
    exact ⟨rfl, by simp [World.remove_container, mapContainsKey_mapRemove]⟩

/-- C4 witness: on a registry holding only `test1`, removing `nope` errors
and changes nothing; removing `test1` succeeds and doing it again errors. -/
theorem remove_container_not_found_spec_witness :
    wWithA.remove_container "nope"
      = (.error (.Config "Container nope not found in state"), wWithA) ∧
    (wWithA.remove_container "test1").1 = .ok () ∧
    ((wWithA.remove_container "test1").2.remove_container "test1").1 =
      .error (.Config "Container test1 not found in state") := by
  refine ⟨?_, ?_, ?_⟩
  · exact (remove_container_not_found_spec wWithA "nope").1 (by decide)
  · exact ((remove_container_not_found_spec wWithA "test1").2 (by decide) rfl).1
  · exact ((remove_container_not_found_spec wWithA "test1").2 (by decide) rfl).2

/-! ### C2 — update-start-time of an unknown id -/

/-- C2 counterexample: updating the start time of an id that is not in the
registry returns success (and still writes the file), not a `NotFound`
error. -/
theorem update_start_time_missing_id_succeeds :
    (emptyWorld.update_container_start_time "missing"
      "2024-01-01T00:00:00Z").1 = .ok () ∧
    (emptyWorld.update_container_start_time "missing"
      "2024-01-01T00:00:00Z").2.disk = some (State.toJson ⟨[]⟩) :=
  ⟨rfl, rfl⟩

/-- C2 (amended): with the write succeeding, `update_container_start_time`
always returns success and persists; a present id has its `last_start` set
to the given timestamp, an absent id leaves the registry unchanged (the
`get_mut` is a silent no-op). -/
theorem update_start_time_spec (w : World) (cid ts : String)
    (horacle : w.oracle = []) :
    (w.update_container_start_time cid ts).1 = .ok () ∧
    (w.update_container_start_time cid ts).2.state.containers =
      mapUpdate w.state.containers cid
        (fun c => { c with last_start := some ts }) ∧
    (w.update_container_start_time cid ts).2.disk =
      some (State.toJson ⟨mapUpdate w.state.containers cid
        (fun c => { c with last_start := some ts })⟩) ∧
    (mapContainsKey w.state.containers cid = false →
      (w.update_container_start_time cid ts).2.state = w.state) := by
  unfold World.update_container_start_time
  rw [World.save_oracle_nil _ (by simpa using horacle)]
  refine ⟨rfl, rfl, rfl, ?_⟩
  intro h
  show State.mk (mapUpdate w.state.containers cid _) = w.state
  rw [mapUpdate_of_not_contains _ _ _ h]

/-- C2 witness: updating a missing id on the empty registry succeeds and
leaves the (empty) registry as it was. -/
theorem update_start_time_spec_witness :
    (emptyWorld.update_container_start_time "m" "t").1 = .ok () ∧
    (emptyWorld.update_container_start_time "m" "t").2.state
      = emptyWorld.state := by
  have h := update_start_time_spec emptyWorld "m" "t" rfl
  exact ⟨h.1, h.2.2.2 rfl⟩

/-! ### C7 — load: absent file is empty, bad file is a carried error -/

/-- C7: loading with no file present yields the empty registry (not an
error); loading a present file that does not parse into a registry yields
the `ConfigFile` error carrying the file path and the parser's cause, never
a silent empty default. -/
theorem load_spec (path : String) :
    State.load none path = .ok ⟨[]⟩ ∧
    ∀ j e, State.fromJson j = .error e →
      State.load (some j) path =
        .error (.ConfigFile "Failed to parse config file" path e) := by
  refine ⟨rfl, ?_⟩
  intro j e h
  simp [State.load, h]

/-- C7 witness: a file holding `null` fails to parse and `load` reports the
`ConfigFile` error with the path and cause; an absent file loads empty. -/
theorem load_spec_witness :
    State.load (some Json.null) "config.json" =
      .error (.ConfigFile "Failed to parse config file" "config.json"
        "expected object for State") ∧
    State.load none "config.json" = .ok ⟨[]⟩ :=
  ⟨(load_spec "config.json").2 Json.null "expected object for State" rfl,
   (load_spec "config.json").1⟩

/-! ### C8 — save then load round-trips the records -/

/-- C8: after a successful `save`, `load` on the same file returns a
registry equal to the saved one. -/
theorem save_load_roundtrip (w : World) (path : String)
    (h : (w.save).1 = .ok ()) :
    State.load (w.save).2.disk path = .ok w.state := by
  obtain ⟨h1, _, _⟩ := World.save_ok_shape w h
  rw [h1]
  simp [State.load, state_roundtrip]

/-- C8 witness: saving the registry holding the test record (id `test1`,
name `test`, port 9090, no data dir, tag `latest`) and loading it back
reproduces the registry, and the loaded record has port 9090 and name
`test`. -/
theorem save_load_roundtrip_witness :
    State.load (wWithA.save).2.disk "config.json" = .ok wWithA.state ∧
    ((State.load (wWithA.save).2.disk "config.json").toOption.bind
      (fun s => s.get_container "test1")).map (fun c => (c.port.val, c.name))
      = some (9090, "test") := by
  refine ⟨save_load_roundtrip wWithA "config.json" rfl, ?_⟩
  rfl

/-! ### C10 — queries are pure -/

/-- C10: no read-only operation (`get_container`, `find_containers_by_name`,
`get_containers`, `get_default_settings`), nor any sequence of them, changes
the registry or the persisted file. -/
theorem queries_leave_world_unchanged (w : World) (qs : List QueryOp) :
    w.runQueries qs = w := by
  induction qs generalizing w with
  | nil => rfl
  | cons q rest ih =>
    have hq : (w.runQuery q).2 = w := by cases q <;> rfl
    show World.runQueries (w.runQuery q).2 rest = w
    rw [hq, ih]

/-! ### C5 — listing order -/

/-- C5 (amended): `get_containers` returns exactly the stored records,
sorted descending by `last_start` with never-started records after all
started ones, and the 2024-01-02 record ahead of the 2024-01-01 record; the
order among records that compare equal follows the hash map's iteration
order, which is not a function of the registry contents (see the
counterexample). -/
theorem get_containers_spec (s : State) :
    List.Perm s.get_containers (mapValues s.containers) ∧
    List.Sorted lastStartDesc s.get_containers ∧
    (∀ a b, List.Sublist [a, b] s.get_containers →
      a.last_start = none → b.last_start = none) ∧
    (State.mk [("c1", recJan1), ("c2", recJan2)]).get_containers
      = [recJan2, recJan1] := by
  have hsorted : List.Sorted lastStartDesc s.get_containers :=
    List.sorted_insertionSort lastStartDesc (mapValues s.containers)
  refine ⟨List.perm_insertionSort lastStartDesc (mapValues s.containers),
    hsorted, ?_, by decide⟩
  intro a b hsub ha
  have hp2 : List.Pairwise lastStartDesc [a, b] := hsorted.sublist hsub
  have hrel : lastStartDesc a b := (List.pairwise_cons.mp hp2).1 b (by simp)
  unfold lastStartDesc at hrel
  rw [ha] at hrel
  cases hb : b.last_start with
  | none => rfl
  | some v => rw [hb] at hrel; simp [optStrLe] at hrel

/-- C5 witness: in a registry of two never-started records the sorted
listing keeps both in the `none` block, so the record after `recNoneX` also
has no `last_start`. -/
theorem get_containers_spec_witness : recNoneY.last_start = none := by
  apply (get_containers_spec
    (State.mk [("x", recNoneX), ("y", recNoneY)])).2.2.1 recNoneX recNoneY
  · have h : (State.mk [("x", recNoneX), ("y", recNoneY)]).get_containers
        = [recNoneX, recNoneY] := by decide
    rw [h]
  · rfl

/-- C5 counterexample: two registries with the same contents (their entry
lists are permutations, i.e. the same hash map) list their never-started
records in different orders, so the relative order among records with no
`last_start` is not a deterministic function of the registry contents — it
depends on the hash map's arbitrary iteration order. -/
theorem get_containers_order_not_deterministic :
    List.Perm (State.mk [("x", recNoneX), ("y", recNoneY)]).containers
      (State.mk [("y", recNoneY), ("x", recNoneX)]).containers ∧
    (State.mk [("x", recNoneX), ("y", recNoneY)]).get_containers ≠
      (State.mk [("y", recNoneY), ("x", recNoneX)]).get_containers := by
  constructor
  · exact List.Perm.swap ("y", recNoneY) ("x", recNoneX) []
  · decide

/-! ### C6 — default settings -/

/-- Folding `maxStep` from `some m` yields an element among `m` and the
list whose `last_start` dominates `m`'s and every listed one's. -/
theorem foldl_maxStep_spec (l : List ContainerInfo) :
    ∀ m : ContainerInfo, ∃ r, l.foldl maxStep (some m) = some r ∧
      (r = m ∨ r ∈ l) ∧ optStrLe m.last_start r.last_start = true ∧
      ∀ x ∈ l, optStrLe x.last_start r.last_start = true := by
  induction l with
  | nil => exact fun m => ⟨m, rfl, .inl rfl, optStrLe_refl _, by simp⟩
  | cons c rest ih =>
    intro m
    by_cases h : optStrLe m.last_start c.last_start = true
    · obtain ⟨r, h1, h2, h3, h4⟩ := ih c
      refine ⟨r, ?_, ?_, optStrLe_trans _ _ _ h h3, ?_⟩
      · simpa [maxStep, h] using h1
      · rcases h2 with h2 | h2
        · right; exact h2 ▸ List.mem_cons_self c rest
        · right; exact List.mem_cons_of_mem c h2
      · intro x hx
        rcases List.mem_cons.mp hx with hx | hx
        · rw [hx]; exact h3
        · exact h4 x hx
    · have hcm : optStrLe c.last_start m.last_start = true := by
        rcases optStrLe_total m.last_start c.last_start with ht | ht
        · exact absurd ht h
        · exact ht
      obtain ⟨r, h1, h2, h3, h4⟩ := ih m
      refine ⟨r, ?_, ?_, h3, ?_⟩
      · simpa [maxStep, h] using h1
      · rcases h2 with h2 | h2
        · left; exact h2
        · right; exact List.mem_cons_of_mem c h2
      · intro x hx
        rcases List.mem_cons.mp hx with hx | hx
        · rw [hx]; exact optStrLe_trans _ _ _ hcm h3
        · exact h4 x hx

/-- C6 (amended): on the empty registry `get_default_settings` is the fixed
fallback `(8090, None)`; on a non-empty registry it is the port and data
mount of a stored record whose `last_start` is maximal.  Among tied maxima
the survivor is the last in the hash map's iteration order, which is not a
function of the registry contents (see the counterexample). -/
theorem get_default_settings_spec (s : State) :
    (s.containers = [] →
      s.get_default_settings = (⟨8090, by decide⟩, none)) ∧
    (s.containers ≠ [] → ∃ c, c ∈ mapValues s.containers ∧
      (∀ x ∈ mapValues s.containers,
        optStrLe x.last_start c.last_start = true) ∧
      s.get_default_settings = (c.port, c.data_dir)) := by
  constructor
  · intro h
    simp [State.get_default_settings, maxByLastStart, mapValues, h]
  · intro h
    rcases hm : mapValues s.containers with _ | ⟨c0, rest⟩
    · exact absurd (by simpa [mapValues] using hm) h
    · obtain ⟨r, h1, h2, h3, h4⟩ := foldl_maxStep_spec rest c0
      have hmax : maxByLastStart (mapValues s.containers) = some r := by
        rw [hm]
        show List.foldl maxStep (maxStep none c0) rest = some r
        exact h1
      refine ⟨r, ?_, ?_, ?_⟩
      · rcases h2 with h2 | h2
        · exact h2 ▸ List.mem_cons_self c0 rest
        · exact List.mem_cons_of_mem c0 h2
      · intro x hx
        rcases List.mem_cons.mp hx with hx | hx
        · rw [hx]; exact h3
        · exact h4 x hx
      · simp [State.get_default_settings, hmax]

/-- C6 witness: the empty registry falls back to `(8090, None)`, and a
one-record registry returns that record's port and mount. -/
theorem get_default_settings_spec_witness :
    (State.mk []).get_default_settings = (⟨8090, by decide⟩, none) ∧
    ∃ c, c ∈ mapValues (State.mk [("c1", recJan1)]).containers ∧
      (∀ x ∈ mapValues (State.mk [("c1", recJan1)]).containers,
        optStrLe x.last_start c.last_start = true) ∧
      (State.mk [("c1", recJan1)]).get_default_settings
        = (c.port, c.data_dir) :=
  ⟨(get_default_settings_spec (State.mk [])).1 rfl,
   (get_default_settings_spec (State.mk [("c1", recJan1)])).2 (by simp)⟩

/-- C6 counterexample: two registries with the same contents but opposite
iteration orders, holding two records tied on `last_start` with different
ports, return different default settings — the tie is not broken
deterministically as a function of the registry contents. -/
theorem get_default_settings_tie_not_deterministic :
    List.Perm (State.mk [("p", recTieP), ("q", recTieQ)]).containers
      (State.mk [("q", recTieQ), ("p", recTieP)]).containers ∧
    (State.mk [("p", recTieP), ("q", recTieQ)]).get_default_settings ≠
      (State.mk [("q", recTieQ), ("p", recTieP)]).get_default_settings := by
  constructor
  · exact List.Perm.swap ("q", recTieQ) ("p", recTieP) []
  · decide

end Flocker
